import Mathlib

/-!
Shallow embedding of the registry-hive header validator in `src/hive.rs`
(crate `registry-rs`).  The byte source behind `Hive::new` is modelled as
`Option (List Nat)`: `none` is a path that cannot be opened, `some content`
an opened file holding the byte list `content`.  Reads are explicit
operations over the content and a read position; the `.unwrap()` in the
checksum decode is modelled by a distinct `panic` outcome.
-/

set_option maxRecDepth 100000

/-- Error kinds of hive validation (`HiveError` in src/hive.rs).  The wrapped
`io::Error` payloads are dropped: only the kind is observable in the claims. -/
inductive HiveError where
  | CannotOpenHive
  | CannotReadData
  | InvalidHive
  deriving DecidableEq, Repr

/-- The validated handle (`Hive` in src/hive.rs): it owns the byte source,
modelled by its content together with the current read position. -/
structure Hive where
  content : List Nat
  pos : Nat
  deriving DecidableEq, Repr

/-- Result of running `Hive::new`: success, a `HiveError`, or a Rust panic
(the `.unwrap()` on the stored-checksum decode). -/
inductive HiveResult where
  | ok (h : Hive)
  | err (e : HiveError)
  | panic
  deriving DecidableEq, Repr

/-- `read_exact` on the opened file: read exactly `n` bytes starting at
position `pos`; fails (UnexpectedEof) when fewer than `n` bytes remain. -/
def readExact (content : List Nat) (pos n : Nat) : Option (List Nat × Nat) :=
  if pos + n ≤ content.length then some ((content.drop pos).take n, pos + n)
  else none

/-- Little-endian decoding of four bytes into a 32-bit word
(`byteorder::LittleEndian`). -/
def u32le (b0 b1 b2 b3 : Nat) : Nat :=
  b0 + b1 * 256 + b2 * 65536 + b3 * 16777216

/-- The little-endian 32-bit word stored at byte offset `i` of a buffer
(out-of-range bytes default to 0; every use is in range). -/
def u32leAt (c : List Nat) (i : Nat) : Nat :=
  u32le (c.getD i 0) (c.getD (i + 1) 0) (c.getD (i + 2) 0) (c.getD (i + 3) 0)

/-- `Cursor::read_u32::<LittleEndian>()`: decode 4 bytes at `pos` and advance;
fails when fewer than 4 bytes remain. -/
def cursorReadU32 (data : List Nat) (pos : Nat) : Option (Nat × Nat) :=
  if pos + 4 ≤ data.length then some (u32leAt data pos, pos + 4) else none

/-- The `for _ in 0..127` XOR loop of `Hive::new`: read `n` little-endian
words from the cursor over `data` starting at `pos`, folding them into the
accumulator `xor` with bitwise XOR; a failed read maps to `CannotReadData`. -/
def xorLoop (data : List Nat) : Nat → Nat → Nat → Except HiveError (Nat × Nat)
  | 0, pos, xor => .ok (xor, pos)
  | Nat.succ k, pos, xor =>
    match cursorReadU32 data pos with
    | none => .error .CannotReadData
    | some (w, pos2) => xorLoop data k pos2 (Nat.xor xor w)

/-- The fixed 4-byte magic, the ASCII bytes of the string regf
(`actual_sig` in src/hive.rs). -/
def actualSig : List Nat := [0x72, 0x65, 0x67, 0x66]

/-- `Hive::new` (src/hive.rs lines 80-139): open the source, check the magic
signature, check that the primary and secondary sequence-number byte arrays
are equal, seek to 0, read the 508-byte header body and the 4-byte stored
checksum, XOR-fold the 127 header words, compare with the stored checksum,
and on success seek back to 0 and return the handle. -/
def Hive.new (file : Option (List Nat)) : HiveResult :=
  match file with
  | none => .err .CannotOpenHive
  | some content =>
    match readExact content 0 4 with
    | none => .err .CannotReadData
    | some (file_sig, pos1) =>
      if file_sig = actualSig then
        match readExact content pos1 4 with
        | none => .err .CannotReadData
        | some (primary, pos2) =>
          match readExact content pos2 4 with
          | none => .err .CannotReadData
          | some (secondary, _pos3) =>
            if primary = secondary then
              match readExact content 0 508 with
              | none => .err .CannotReadData
              | some (header_raw, pos4) =>
                match readExact content pos4 4 with
                | none => .err .CannotReadData
                | some (header_check, _pos5) =>
                  match cursorReadU32 header_check 0 with
                  | none => .panic
                  | some (csum, _) =>
                    match xorLoop header_raw 127 0 0 with
                    | .error e => .err e
                    | .ok (xor, _) =>
                      if xor = csum then .ok { content := content, pos := 0 }
                      else .err .InvalidHive
            else .err .InvalidHive
      else .err .InvalidHive

/-- Pure XOR fold of `n` consecutive little-endian 32-bit words of `c`
starting at byte offset `pos`, into the accumulator `acc`. -/
def xorWords (c : List Nat) : Nat → Nat → Nat → Nat
  | 0, _, acc => acc
  | Nat.succ k, pos, acc => xorWords c k (pos + 4) (Nat.xor acc (u32leAt c pos))

/-- The header checksum: the XOR fold, in 32-bit arithmetic, of the 127
consecutive little-endian 32-bit words occupying bytes 0..508. -/
def xorFold (c : List Nat) : Nat := xorWords c 127 0 0

/-- Collapse a `HiveResult` to its observable kind: success, an error kind,
or a panic (two `ok` results with different handles share the kind). -/
def outcomeOf : HiveResult → Option (Option HiveError)
  | .ok _ => none
  | .err e => some (some e)
  | .panic => some none

/-- Scenario A of the spec: a 512-byte buffer that is all zeros except the
signature, with the stored checksum word at offset 508 equal to 0. -/
def scenarioABuf : List Nat := actualSig ++ List.replicate 508 0

/-- Scenario A with the stored checksum corrected: the XOR fold of the 127
header words is the signature word itself (the other 126 words are zero),
so bytes 508..512 must repeat the regf bytes. -/
def scenarioAFixedBuf : List Nat := actualSig ++ List.replicate 504 0 ++ actualSig

/-- A 12-byte buffer with a correct signature and mismatched sequence-number
byte arrays. -/
def seqMismatchBuf : List Nat := actualSig ++ [1, 0, 0, 0, 2, 0, 0, 0]

theorem getD_take_of_lt (l : List Nat) (n i d : Nat) (h : i < n) :
    (l.take n).getD i d = l.getD i d := by
  simp [List.getD_eq_getElem?_getD, List.getElem?_take, h]

theorem getD_drop (l : List Nat) (n i d : Nat) :
    (l.drop n).getD i d = l.getD (n + i) d := by
  simp [List.getD_eq_getElem?_getD, List.getElem?_drop]

theorem u32leAt_take (l : List Nat) (n i : Nat) (h : i + 4 ≤ n) :
    u32leAt (l.take n) i = u32leAt l i := by
  unfold u32leAt
  rw [getD_take_of_lt l n i 0 (by omega), getD_take_of_lt l n (i+1) 0 (by omega),
      getD_take_of_lt l n (i+2) 0 (by omega), getD_take_of_lt l n (i+3) 0 (by omega)]

theorem u32leAt_drop_take (l : List Nat) (m : Nat) :
    u32leAt ((l.drop m).take 4) 0 = u32leAt l m := by
  unfold u32leAt
  rw [getD_take_of_lt _ 4 0 0 (by omega), getD_take_of_lt _ 4 1 0 (by omega),
      getD_take_of_lt _ 4 2 0 (by omega), getD_take_of_lt _ 4 3 0 (by omega),
      getD_drop, getD_drop, getD_drop, getD_drop]
  norm_num

theorem xorWords_take (l : List Nat) (m : Nat) :
    ∀ (n pos acc : Nat), pos + 4 * n ≤ m → xorWords (l.take m) n pos acc = xorWords l n pos acc
  | 0, _, _, _ => rfl
  | Nat.succ k, pos, acc, h => by
    unfold xorWords
    rw [u32leAt_take l m pos (by omega), xorWords_take l m k (pos + 4) _ (by omega)]

theorem xorLoop_eq (data : List Nat) :
    ∀ (n pos acc : Nat), pos + 4 * n ≤ data.length →
      xorLoop data n pos acc = .ok (xorWords data n pos acc, pos + 4 * n)
  | 0, pos, acc, _ => by simp [xorLoop, xorWords]
  | Nat.succ k, pos, acc, h => by
    have h4 : pos + 4 ≤ data.length := by omega
    unfold xorLoop
    rw [cursorReadU32, if_pos h4]
    show xorLoop data k (pos + 4) (Nat.xor acc (u32leAt data pos)) = _
    rw [xorLoop_eq data k (pos + 4) _ (by omega)]
    simp [xorWords]
    omega

/-- Branch-complete characterization of `Hive::new` on an opened source. -/
theorem hiveNew_some_eq (c : List Nat) :
    Hive.new (some c) =
      if 4 ≤ c.length then
        if c.take 4 = actualSig then
          if 12 ≤ c.length then
            if (c.drop 4).take 4 = (c.drop 8).take 4 then
              if 512 ≤ c.length then
                if xorFold c = u32leAt c 508 then .ok ⟨c, 0⟩ else .err .InvalidHive
              else .err .CannotReadData
            else .err .InvalidHive
          else .err .CannotReadData
        else .err .InvalidHive
      else .err .CannotReadData := by
  by_cases h4 : 4 ≤ c.length
  case neg =>
    have : ¬ (0 + 4 ≤ c.length) := by omega
    simp [Hive.new, readExact, this, h4]
  case pos =>
  rw [if_pos h4]
  have e1 : readExact c 0 4 = some (c.take 4, 4) := by simp [readExact, h4]
  by_cases hsig : c.take 4 = actualSig
  case neg => simp [Hive.new, e1, hsig]
  case pos =>
  rw [if_pos hsig]
  by_cases h12 : 12 ≤ c.length
  case neg =>
    rw [if_neg h12]
    by_cases h8 : 4 + 4 ≤ c.length
    · have e2 : readExact c 4 4 = some ((c.drop 4).take 4, 8) := by
        simp [readExact]; omega
      have e3n : readExact c 8 4 = none := by
        rw [readExact, if_neg (by omega)]
      simp [Hive.new, e1, hsig, e2, e3n]
    · have e2n : readExact c 4 4 = none := by
        rw [readExact, if_neg (by omega)]
      simp [Hive.new, e1, hsig, e2n]
  case pos =>
  rw [if_pos h12]
  have e2 : readExact c 4 4 = some ((c.drop 4).take 4, 8) := by
    simp [readExact]; omega
  have e3 : readExact c 8 4 = some ((c.drop 8).take 4, 12) := by
    simp [readExact]; omega
  by_cases hseq : (c.drop 4).take 4 = (c.drop 8).take 4
  case neg => simp [Hive.new, e1, hsig, e2, e3, hseq]
  case pos =>
  rw [if_pos hseq]
  by_cases h512 : 512 ≤ c.length
  case neg =>
    rw [if_neg h512]
    by_cases h508 : 508 ≤ c.length
    · have e4 : readExact c 0 508 = some (c.take 508, 508) := by
        simp [readExact]; omega
      have e5n : readExact c 508 4 = none := by
        rw [readExact, if_neg (by omega)]
      simp [Hive.new, e1, hsig, e2, e3, hseq, e4, e5n]
    · have e4n : readExact c 0 508 = none := by
        rw [readExact, if_neg (by omega)]
      simp [Hive.new, e1, hsig, e2, e3, hseq, e4n]
  case pos =>
  rw [if_pos h512]
  have e4 : readExact c 0 508 = some (c.take 508, 508) := by
    simp [readExact]; omega
  have e5 : readExact c 508 4 = some ((c.drop 508).take 4, 512) := by
    simp [readExact]; omega
  have e6 : cursorReadU32 ((c.drop 508).take 4) 0 = some (u32leAt c 508, 4) := by
    have hlen4 : ((c.drop 508).take 4).length = 4 := by
      simp [List.length_take, List.length_drop]; omega
    rw [cursorReadU32, if_pos (by omega), u32leAt_drop_take]
  have e7 : xorLoop (c.take 508) 127 0 0 = .ok (xorFold c, 508) := by
    have hlen508 : (c.take 508).length = 508 := by
      simp [List.length_take]; omega
    rw [xorLoop_eq (c.take 508) 127 0 0 (by omega),
        xorWords_take c 508 127 0 0 (by omega)]
    rfl
  by_cases hcs : xorFold c = u32leAt c 508
  · simp [Hive.new, e1, hsig, e2, e3, hseq, e4, e5, e6, e7, hcs]
  · simp [Hive.new, e1, hsig, e2, e3, hseq, e4, e5, e6, e7, hcs]

/-- C3: for every readable buffer of at least 4 bytes whose first 4 bytes
differ from the regf magic, validation fails with `InvalidHive`, regardless
of the remaining bytes. -/
theorem bad_signature_invalidhive (c : List Nat) (h4 : 4 ≤ c.length)
    (hsig : c.take 4 ≠ actualSig) : Hive.new (some c) = .err .InvalidHive := by
  rw [hiveNew_some_eq c, if_pos h4, if_neg hsig]

theorem bad_signature_invalidhive_witness :
    4 ≤ ([1, 2, 3, 4, 5] : List Nat).length ∧
      ([1, 2, 3, 4, 5] : List Nat).take 4 ≠ actualSig ∧
      Hive.new (some [1, 2, 3, 4, 5]) = .err .InvalidHive :=
  ⟨by decide, by decide, bad_signature_invalidhive [1, 2, 3, 4, 5] (by decide) (by decide)⟩

/-- C4: for every readable buffer of at least 12 bytes with a correct
signature, if the raw 4-byte array at offset 4 differs from the raw 4-byte
array at offset 8, validation fails with `InvalidHive`. -/
theorem sequence_mismatch_invalidhive (c : List Nat) (h12 : 12 ≤ c.length)
    (hsig : c.take 4 = actualSig)
    (hneq : (c.drop 4).take 4 ≠ (c.drop 8).take 4) :
    Hive.new (some c) = .err .InvalidHive := by
  rw [hiveNew_some_eq c, if_pos (by omega), if_pos hsig, if_pos h12, if_neg hneq]

theorem sequence_mismatch_invalidhive_witness :
    12 ≤ seqMismatchBuf.length ∧ seqMismatchBuf.take 4 = actualSig ∧
      (seqMismatchBuf.drop 4).take 4 ≠ (seqMismatchBuf.drop 8).take 4 ∧
      Hive.new (some seqMismatchBuf) = .err .InvalidHive :=
  ⟨by decide, by decide, by decide,
    sequence_mismatch_invalidhive seqMismatchBuf (by decide) (by decide) (by decide)⟩

/-- C5: for every readable buffer of at least 512 bytes with correct
signature and equal sequence-number byte arrays, if the little-endian u32 at
offset 508 differs from the 32-bit XOR fold of the 127 little-endian words at
bytes 0..508, validation fails with `InvalidHive`. -/
theorem checksum_mismatch_invalidhive (c : List Nat) (h512 : 512 ≤ c.length)
    (hsig : c.take 4 = actualSig)
    (hseq : (c.drop 4).take 4 = (c.drop 8).take 4)
    (hcs : u32leAt c 508 ≠ xorFold c) :
    Hive.new (some c) = .err .InvalidHive := by
  rw [hiveNew_some_eq c, if_pos (by omega), if_pos hsig, if_pos (by omega),
      if_pos hseq, if_pos h512, if_neg (fun h => hcs h.symm)]

theorem checksum_mismatch_invalidhive_witness :
    512 ≤ scenarioABuf.length ∧ scenarioABuf.take 4 = actualSig ∧
      (scenarioABuf.drop 4).take 4 = (scenarioABuf.drop 8).take 4 ∧
      u32leAt scenarioABuf 508 ≠ xorFold scenarioABuf ∧
      Hive.new (some scenarioABuf) = .err .InvalidHive :=
  ⟨by decide, by decide, by decide, by decide,
    checksum_mismatch_invalidhive scenarioABuf (by decide) (by decide) (by decide) (by decide)⟩

/-- C6: for every readable buffer of at least 512 bytes that passes all
three checks, validation returns `ok` with a handle owning the source,
positioned at absolute offset 0. -/
theorem all_checks_pass_ok_rewound (c : List Nat) (h512 : 512 ≤ c.length)
    (hsig : c.take 4 = actualSig)
    (hseq : (c.drop 4).take 4 = (c.drop 8).take 4)
    (hcs : u32leAt c 508 = xorFold c) :
    Hive.new (some c) = .ok ⟨c, 0⟩ := by
  rw [hiveNew_some_eq c, if_pos (by omega), if_pos hsig, if_pos (by omega),
      if_pos hseq, if_pos h512, if_pos hcs.symm]

theorem all_checks_pass_ok_rewound_witness :
    512 ≤ scenarioAFixedBuf.length ∧ scenarioAFixedBuf.take 4 = actualSig ∧
      (scenarioAFixedBuf.drop 4).take 4 = (scenarioAFixedBuf.drop 8).take 4 ∧
      u32leAt scenarioAFixedBuf 508 = xorFold scenarioAFixedBuf ∧
      Hive.new (some scenarioAFixedBuf) = .ok ⟨scenarioAFixedBuf, 0⟩ :=
  ⟨by decide, by decide, by decide, by decide,
    all_checks_pass_ok_rewound scenarioAFixedBuf (by decide) (by decide) (by decide) (by decide)⟩

/-- C7: `CannotOpenHive` is produced exactly when opening fails; after a
successful open the validator never reports `CannotOpenHive`. -/
theorem cannotopenhive_only_from_open (file : Option (List Nat)) :
    Hive.new file = .err .CannotOpenHive ↔ file = none := by
  cases file with
  | none => simp [Hive.new]
  | some c =>
    rw [hiveNew_some_eq c]
    split_ifs <;> simp

theorem cannotopenhive_only_from_open_witness :
    Hive.new none = .err .CannotOpenHive ↔ (none : Option (List Nat)) = none :=
  cannotopenhive_only_from_open none

/-- C1 counterexample: the spec's scenario A buffer (all zeros except the
signature, stored checksum 0) is rejected with `InvalidHive`, because the
XOR fold covers bytes 0..508 and therefore includes the signature word. -/
theorem scenarioA_zero_checksum_rejected :
    Hive.new (some scenarioABuf) = .err .InvalidHive := by decide

/-- C1 (amended): scenario A with the stored checksum equal to the
little-endian decoding of the regf bytes (0x66676572), the actual XOR fold
of the 127 header words, validates successfully. -/
theorem scenarioA_regf_checksum_accepted :
    Hive.new (some scenarioAFixedBuf) = .ok ⟨scenarioAFixedBuf, 0⟩ := by decide

/-- C2 counterexample: a readable 4-byte all-zero buffer is shorter than 512
bytes, yet validation fails with `InvalidHive` (bad signature), not with
`CannotOpenHive` or `CannotReadData`. -/
theorem short_buffer_can_fail_invalidhive :
    ([0, 0, 0, 0] : List Nat).length < 512 ∧
      Hive.new (some [0, 0, 0, 0]) = .err .InvalidHive := by decide

/-- C2 (amended): a readable buffer of fewer than 512 bytes never validates
successfully — it fails with `CannotOpenHive`, `CannotReadData`, or
`InvalidHive` — and an unopenable source fails with `CannotOpenHive`. -/
theorem short_or_unopenable_never_succeeds (c : List Nat) (hlen : c.length < 512) :
    (∃ e, Hive.new (some c) = .err e) ∧ Hive.new none = .err .CannotOpenHive := by
  refine ⟨?_, rfl⟩
  rw [hiveNew_some_eq c]
  split_ifs <;> first | exact ⟨_, rfl⟩ | omega

theorem short_or_unopenable_never_succeeds_witness :
    (∃ e, Hive.new (some ([] : List Nat)) = .err e) ∧
      Hive.new none = .err .CannotOpenHive :=
  short_or_unopenable_never_succeeds [] (by decide)

/-- C8: validation is read-only and idempotent: a successful validation
returns a handle owning the unmodified source bytes at position 0, and
validating that same content again yields the very same success. -/
theorem validation_idempotent_readonly (c : List Nat) (h : Hive)
    (hok : Hive.new (some c) = .ok h) :
    h.content = c ∧ h.pos = 0 ∧ Hive.new (some h.content) = .ok h := by
  have hc : Hive.new (some c) = .ok ⟨c, 0⟩ := by
    rw [hiveNew_some_eq c] at hok ⊢
    split_ifs at hok ⊢
    all_goals simp_all
  rw [hc] at hok
  injection hok with h1
  subst h1
  exact ⟨rfl, rfl, hc⟩

theorem validation_idempotent_readonly_witness :
    (⟨scenarioAFixedBuf, 0⟩ : Hive).content = scenarioAFixedBuf ∧
      (⟨scenarioAFixedBuf, 0⟩ : Hive).pos = 0 ∧
      Hive.new (some (⟨scenarioAFixedBuf, 0⟩ : Hive).content) =
        .ok ⟨scenarioAFixedBuf, 0⟩ :=
  validation_idempotent_readonly scenarioAFixedBuf ⟨scenarioAFixedBuf, 0⟩ (by decide)

/-- C9: the in-memory checksum decoding cannot fail: `Hive::new` never
panics on any input; decoding the stored checksum from any filled 4-byte
cursor succeeds; and all 127 word reads of the XOR loop over any filled
508-byte cursor succeed, so its `CannotReadData` branch is unreachable. -/
theorem checksum_pass_no_panic :
    (∀ file, Hive.new file ≠ HiveResult.panic) ∧
      (∀ chk : List Nat, chk.length = 4 → ∃ w, cursorReadU32 chk 0 = some (w, 4)) ∧
      (∀ hdr : List Nat, hdr.length = 508 → ∃ r, xorLoop hdr 127 0 0 = Except.ok r) := by
  refine ⟨?_, ?_, ?_⟩
  · intro file
    cases file with
    | none => simp [Hive.new]
    | some c =>
      rw [hiveNew_some_eq c]
      split_ifs <;> simp
  · intro chk hlen
    exact ⟨u32leAt chk 0, by rw [cursorReadU32, if_pos (by omega)]⟩
  · intro hdr hlen
    refine ⟨(xorWords hdr 127 0 0, 508), ?_⟩
    rw [xorLoop_eq hdr 127 0 0 (by omega)]

theorem checksum_pass_no_panic_witness :
    Hive.new none ≠ HiveResult.panic ∧
      (∃ w, cursorReadU32 [0, 0, 0, 0] 0 = some (w, 4)) ∧
      (∃ r, xorLoop (List.replicate 508 0) 127 0 0 = Except.ok r) :=
  ⟨checksum_pass_no_panic.1 none,
    checksum_pass_no_panic.2.1 [0, 0, 0, 0] (by decide),
    checksum_pass_no_panic.2.2 (List.replicate 508 0) (by simp)⟩

/-- C10: the validation outcome depends only on the first 512 bytes: two
readable sources of length at least 512 agreeing on bytes 0..512 produce
the same outcome kind. -/
theorem outcome_depends_only_on_first_512 (c1 c2 : List Nat)
    (h1 : 512 ≤ c1.length) (h2 : 512 ≤ c2.length)
    (hpre : c1.take 512 = c2.take 512) :
    outcomeOf (Hive.new (some c1)) = outcomeOf (Hive.new (some c2)) := by
  have ht4 : c1.take 4 = c2.take 4 := by
    have e1 : (c1.take 512).take 4 = c1.take 4 := by
      rw [List.take_take]; norm_num
    have e2 : (c2.take 512).take 4 = c2.take 4 := by
      rw [List.take_take]; norm_num
    rw [← e1, ← e2, hpre]
  have hdt : ∀ m : Nat, m + 4 ≤ 512 →
      (c1.drop m).take 4 = (c2.drop m).take 4 := by
    intro m hm
    have e1 : ((c1.take 512).drop m).take 4 = (c1.drop m).take 4 := by
      rw [List.drop_take, List.take_take]
      congr 1
      omega
    have e2 : ((c2.take 512).drop m).take 4 = (c2.drop m).take 4 := by
      rw [List.drop_take, List.take_take]
      congr 1
      omega
    rw [← e1, ← e2, hpre]
  have hxor : xorFold c1 = xorFold c2 := by
    unfold xorFold
    rw [← xorWords_take c1 512 127 0 0 (by omega),
        ← xorWords_take c2 512 127 0 0 (by omega), hpre]
  have hcsum : u32leAt c1 508 = u32leAt c2 508 := by
    rw [← u32leAt_take c1 512 508 (by omega),
        ← u32leAt_take c2 512 508 (by omega), hpre]
  rw [hiveNew_some_eq c1, hiveNew_some_eq c2,
      if_pos (show 4 ≤ c1.length by omega), if_pos (show 4 ≤ c2.length by omega),
      if_pos (show 12 ≤ c1.length by omega), if_pos (show 12 ≤ c2.length by omega),
      if_pos h1, if_pos h2,
      ht4, hdt 4 (by omega), hdt 8 (by omega), hxor, hcsum]
  split_ifs <;> rfl

theorem outcome_depends_only_on_first_512_witness :
    512 ≤ scenarioAFixedBuf.length ∧ 512 ≤ (scenarioAFixedBuf ++ [7]).length ∧
      scenarioAFixedBuf.take 512 = (scenarioAFixedBuf ++ [7]).take 512 ∧
      outcomeOf (Hive.new (some scenarioAFixedBuf)) =
        outcomeOf (Hive.new (some (scenarioAFixedBuf ++ [7]))) :=
  ⟨by decide, by decide, by decide,
    outcome_depends_only_on_first_512 scenarioAFixedBuf (scenarioAFixedBuf ++ [7])
      (by decide) (by decide) (by decide)⟩
